import Mathlib

/-!
Shallow embedding of `src/p3.py` (function `resolver_distribuicao`).

The Python function reads a text file, parses a header `n m t`, then `n`
factory records `(fi, pj, fmax)`, `m` country records `(pj, pmaxj, pminj)`,
and the remaining lines as request records `(ck, pj, f1 f2 ...)`.  It then
builds a 0/1 program with the `pulp` library, solves it, and returns the
number of satisfied requests — but only when *every* parsed request is
satisfied; every failure path (unreadable file, malformed record, solver
exception, non-`Optimal` status, or a partially satisfied optimum) returns
`-1`.

Modelling conventions:
  * machine text is `List String` (the result of `readlines()`); a file that
    cannot be read is `Option.none` at the pipeline entry;
  * Python `int(tok)` is modelled for the standard numerals the inputs use:
    an optional sign followed by decimal digits;
  * Python's negative-index list access (`linhas[i]` with `i < 0` wrapping
    from the end) is modelled in `obterLinha`; an out-of-range access raises
    `IndexError`, which the outer `except` turns into `-1`, so it is `none`
    here exactly like an inner `ValueError`;
  * the external `pulp` solver is modelled by its documented contract: when
    the constraint system is feasible, `solve()` reports status `Optimal`
    together with an optimal 0/1 assignment of the decision variables;
    otherwise it reports a non-`Optimal` status.  The assignment the solver
    picks among tied optima is not determined, so theorems quantify over
    every assignment satisfying the contract (`Otimo`);
  * `pulp.LpProblem` is created with `noOverlap = 1`: adding a second
    constraint with an already used name raises
    `PulpError("overlapping constraintNames")`.  The constraint names the
    code uses are keyed by factory id (`Capacidade_fabrica_{fi}`), country
    id (`Exportacao_maxima_{pj}`, `Exportacao_minima_{pj}`) and request id
    (`Pedido_{ck}_unico`), so an instance with a duplicated factory,
    country, or request id raises during model construction, reaching the
    outer `except` and returning `-1` before any solving (`temDuplicatas`).
-/

set_option maxHeartbeats 1000000

namespace P3

/-- Accumulator pass behind `tokeniza`: collect maximal runs of
non-whitespace characters. -/
def palavrasAux : List Char → List Char → List String
  | [], acc => if acc.isEmpty then [] else [String.mk acc.reverse]
  | c :: resto, acc =>
    if c.isWhitespace then
      if acc.isEmpty then palavrasAux resto []
      else String.mk acc.reverse :: palavrasAux resto []
    else palavrasAux resto (c :: acc)

/-- Python `s.strip().split()`: split on whitespace runs, no empty pieces. -/
def tokeniza (s : String) : List String :=
  palavrasAux s.toList []

/-- Value of a nonempty all-digit character list, `none` otherwise. -/
def parseDigitos : List Char → Option Nat
  | [] => none
  | l =>
    if l.all Char.isDigit then
      some (l.foldl (fun a c => a * 10 + (c.toNat - 48)) 0)
    else none

/-- Python `int(tok)` on the numerals the program consumes: an optional
sign followed by decimal digits; anything else raises `ValueError`. -/
def parseIntPy (s : String) : Option Int :=
  match s.toList with
  | '-' :: resto => (parseDigitos resto).map (fun v => -(v : Int))
  | '+' :: resto => (parseDigitos resto).map (fun v => (v : Int))
  | l => (parseDigitos l).map (fun v => (v : Int))

/-- Python `linhas[i]` for an `Int` index: non-negative indices in range,
negative indices counting from the end, anything else `IndexError`. -/
def obterLinha (linhas : List String) (i : Int) : Option String :=
  if h : 0 ≤ i ∧ i < (linhas.length : Int) then
    some (linhas.get ⟨i.toNat, by omega⟩)
  else if h2 : -(linhas.length : Int) ≤ i ∧ i < 0 then
    some (linhas.get ⟨((linhas.length : Int) + i).toNat, by omega⟩)
  else none

/-- Python `range(a, b)` over `Int` bounds. -/
def intRange (a b : Int) : List Int :=
  (List.range (b - a).toNat).map (fun k => a + (k : Int))

/-- One factory or country record: `linhas[i]` must hold exactly three
integers (`fi, pj, fmax = map(int, linhas[i].strip().split())`). -/
def parseTripla (linhas : List String) (i : Int) : Option (Int × Int × Int) := do
  let linha ← obterLinha linhas i
  let valores ← (tokeniza linha).mapM parseIntPy
  match valores with
  | [a, b, c] => some (a, b, c)
  | _ => none

/-- One request record: `ck, pj, *fabricas_ck = dados` needs at least two
integers; the remainder is the eligibility list. -/
def parsePedido (linhas : List String) (i : Int) : Option (Int × Int × List Int) := do
  let linha ← obterLinha linhas i
  let valores ← (tokeniza linha).mapM parseIntPy
  match valores with
  | a :: b :: resto => some (a, b, resto)
  | _ => none

/-- The parsed problem data exactly as the Python function holds it:
`fabricas = (fi, pj, fmax)`, `paises = (pj, pmaxj, pminj)`,
`pedidos = (ck, pj, fabricas_ck)`. -/
structure Instancia where
  fabricas : List (Int × Int × Int)
  paises : List (Int × Int × Int)
  pedidos : List (Int × Int × List Int)
deriving DecidableEq

/-- Lines 10–46 of `src/p3.py`: reject fewer than two lines, parse the
header `n m t` (exactly three integers), then the three record blocks at
the index ranges the Python loops visit.  Any `ValueError`/`IndexError`
is `none` (the function returns `-1`). -/
def parseInstancia (linhas : List String) : Option Instancia :=
  if linhas.length < 2 then none
  else do
    let cab ← obterLinha linhas 0
    let params ← (tokeniza cab).mapM parseIntPy
    match params with
    | [n, m, _t] => do
        let fabricas ← (intRange 1 (n + 1)).mapM (parseTripla linhas)
        let paises ← (intRange (n + 1) (n + 1 + m)).mapM (parseTripla linhas)
        let pedidos ← (intRange (n + 1 + m) (linhas.length : Int)).mapM (parsePedido linhas)
        some ⟨fabricas, paises, pedidos⟩
    | _ => none

/-- Numeric value of the binary decision variable `x[k, f]`. -/
def val (x : Int → Int → Bool) (k f : Int) : Int := if x k f then 1 else 0

/-- Inner sum `lpSum(x[k, f] for f in fabricas_ck)` of one request. -/
def somaPedido (x : Int → Int → Bool) (k : Int) (l : List Int) : Int :=
  (l.map (fun f => val x k f)).sum

/-- Line 60: `lpSum(x[k, f] for k, _, fabricas_ck in pedidos
for f in fabricas_ck if f == fi)`. -/
def somaFabrica (pedidos : List (Int × Int × List Int)) (x : Int → Int → Bool)
    (fi : Int) : Int :=
  (pedidos.map (fun p => (p.2.2.map (fun f => if f = fi then val x p.1 f else 0)).sum)).sum

/-- Lines 68 and 73: `lpSum(x[k, f] for k, pais, fabricas_ck in pedidos
for f in fabricas_ck if pais == pj)` — the guard is on the request's own
country, with no condition on the producer's country. -/
def somaPais (pedidos : List (Int × Int × List Int)) (x : Int → Int → Bool)
    (pj : Int) : Int :=
  (pedidos.map (fun p => if p.2.1 = pj then somaPedido x p.1 p.2.2 else 0)).sum

/-- Line 55: the objective `lpSum(x[k, f] for k, _, fabricas_ck in pedidos
for f in fabricas_ck)`. -/
def objetivo (pedidos : List (Int × Int × List Int)) (x : Int → Int → Bool) : Int :=
  (pedidos.map (fun p => somaPedido x p.1 p.2.2)).sum

/-- Lines 57–82: a 0/1 assignment satisfies every constraint the code adds —
one capacity constraint per factory record, the two export bounds per
country record, and one uniqueness constraint per request record. -/
def factivel (inst : Instancia) (x : Int → Int → Bool) : Bool :=
  inst.fabricas.all (fun fa => decide (somaFabrica inst.pedidos x fa.1 ≤ fa.2.2)) &&
  inst.paises.all (fun pa =>
    decide (somaPais inst.pedidos x pa.1 ≤ pa.2.1) &&
    decide (pa.2.2 ≤ somaPais inst.pedidos x pa.1)) &&
  inst.pedidos.all (fun p => decide (somaPedido x p.1 p.2.2 ≤ 1))

/-- The solver contract for status `Optimal`: `x` is feasible and maximizes
the objective among all feasible 0/1 assignments. -/
def Otimo (inst : Instancia) (x : Int → Int → Bool) : Prop :=
  factivel inst x = true ∧
  ∀ y, factivel inst y = true → objetivo inst.pedidos y ≤ objetivo inst.pedidos x

/-- Line 100: `any(pulp.value(x[k, f]) == 1 for f in fabricas_ck)`. -/
def atendido (x : Int → Int → Bool) (p : Int × Int × List Int) : Bool :=
  p.2.2.any (fun f => x p.1 f)

/-- Lines 98–101: the number of requests with an assigned producer. -/
def resultado (pedidos : List (Int × Int × List Int)) (x : Int → Int → Bool) : Nat :=
  pedidos.countP (atendido x)

/-- Lines 106–110: return `-1` unless every parsed request is satisfied. -/
def retorno (inst : Instancia) (x : Int → Int → Bool) : Int :=
  if resultado inst.pedidos x < inst.pedidos.length then -1
  else (resultado inst.pedidos x : Int)

/-- Whether an id list contains a repeated id. -/
def existeDuplicata : List Int → Bool
  | [] => false
  | a :: resto => resto.contains a || existeDuplicata resto

/-- A duplicated factory, country, or request id duplicates a `pulp`
constraint name, which raises `PulpError` during model construction. -/
def temDuplicatas (inst : Instancia) : Bool :=
  existeDuplicata (inst.fabricas.map (fun fa => fa.1)) ||
  existeDuplicata (inst.paises.map (fun pa => pa.1)) ||
  existeDuplicata (inst.pedidos.map (fun p => p.1))

/-- What `problema.solve()` plus the status check can produce: status
`Optimal` with a variable assignment, any non-`Optimal` status (line 92
sends `Infeasible`, `Undefined`, `Not Solved`, ... to `-1`), or an
exception raised while solving or extracting values (lines 85–104). -/
inductive ResultadoSolver where
  | otimo (x : Int → Int → Bool)
  | statusFalha
  | excecao

/-- Lines 48–110 on a parsed instance: `PulpError` on a duplicated
constraint name, then the solver branches, then the extraction of the
count with the all-satisfied check. -/
def reporte (inst : Instancia) (s : ResultadoSolver) : Int :=
  if temDuplicatas inst then -1
  else
    match s with
    | .otimo x => retorno inst x
    | .statusFalha => -1
    | .excecao => -1

/-- The whole function `resolver_distribuicao`: `none` is a file that
cannot be read (the outer `except` returns `-1`), then parsing, then the
model-and-solve phase. -/
def resolver_distribuicao (conteudo : Option (List String)) (s : ResultadoSolver) : Int :=
  match conteudo with
  | none => -1
  | some linhas =>
    match parseInstancia linhas with
    | none => -1
    | some inst => reporte inst s

/-- Owning group of a producer id, if the producer exists (spec-side
lookup used to compare the code's group bounds with the spec's). -/
def grupoDaFabrica (fabricas : List (Int × Int × Int)) (f : Int) : Option Int :=
  (fabricas.find? (fun fa => fa.1 == f)).map (fun fa => fa.2.1)

/-- Contribution of the pair `(k, f)` to the spec's *import* sum for group
`pj`: counted only when `f` names an existing producer owned by a group
other than `pj`. -/
def valImportada (fabricas : List (Int × Int × Int)) (x : Int → Int → Bool)
    (pj k f : Int) : Int :=
  match grupoDaFabrica fabricas f with
  | some g => if g = pj then 0 else val x k f
  | none => 0

/-- Complement of `valImportada` inside the code's group sum: pairs whose
producer is owned by `pj` itself or does not exist. -/
def valPropria (fabricas : List (Int × Int × Int)) (x : Int → Int → Bool)
    (pj k f : Int) : Int :=
  match grupoDaFabrica fabricas f with
  | some g => if g = pj then val x k f else 0
  | none => val x k f

/-- Modelled from the spec: for each group, the sum of variables whose
request belongs to that group and whose producer belongs to a different
group. -/
def somaPaisImportada (fabricas : List (Int × Int × Int))
    (pedidos : List (Int × Int × List Int)) (x : Int → Int → Bool) (pj : Int) : Int :=
  (pedidos.map (fun p =>
    if p.2.1 = pj then (p.2.2.map (fun f => valImportada fabricas x pj p.1 f)).sum
    else 0)).sum

/-- The intra-group (or unknown-producer) part of the code's group sum. -/
def somaPaisPropria (fabricas : List (Int × Int × Int))
    (pedidos : List (Int × Int × List Int)) (x : Int → Int → Bool) (pj : Int) : Int :=
  (pedidos.map (fun p =>
    if p.2.1 = pj then (p.2.2.map (fun f => valPropria fabricas x pj p.1 f)).sum
    else 0)).sum

/-- Modelled from the spec: feasibility with the group bounds applied to
the cross-group import sum only, as §3 and §4.2 of the spec describe. -/
def factivelSpec (inst : Instancia) (x : Int → Int → Bool) : Bool :=
  inst.fabricas.all (fun fa => decide (somaFabrica inst.pedidos x fa.1 ≤ fa.2.2)) &&
  inst.paises.all (fun pa =>
    decide (somaPaisImportada inst.fabricas inst.pedidos x pa.1 ≤ pa.2.1) &&
    decide (pa.2.2 ≤ somaPaisImportada inst.fabricas inst.pedidos x pa.1)) &&
  inst.pedidos.all (fun p => decide (somaPedido x p.1 p.2.2 ≤ 1))

/-- `Relaxa R F` says `R` is `F` with exactly one bound relaxed: one
factory's capacity raised, one country's import maximum raised, or one
country's import minimum lowered. -/
inductive Relaxa : Instancia → Instancia → Prop where
  | capacidade (antes depois : List (Int × Int × Int))
      (paises : List (Int × Int × Int)) (pedidos : List (Int × Int × List Int))
      (fi pj c c' : Int) : c ≤ c' →
      Relaxa ⟨antes ++ (fi, pj, c') :: depois, paises, pedidos⟩
             ⟨antes ++ (fi, pj, c) :: depois, paises, pedidos⟩
  | importMax (fabricas : List (Int × Int × Int))
      (antes depois : List (Int × Int × Int)) (pedidos : List (Int × Int × List Int))
      (pj pmax pmax' pmin : Int) : pmax ≤ pmax' →
      Relaxa ⟨fabricas, antes ++ (pj, pmax', pmin) :: depois, pedidos⟩
             ⟨fabricas, antes ++ (pj, pmax, pmin) :: depois, pedidos⟩
  | importMin (fabricas : List (Int × Int × Int))
      (antes depois : List (Int × Int × Int)) (pedidos : List (Int × Int × List Int))
      (pj pmax pmin pmin' : Int) : pmin' ≤ pmin →
      Relaxa ⟨fabricas, antes ++ (pj, pmax, pmin') :: depois, pedidos⟩
             ⟨fabricas, antes ++ (pj, pmax, pmin) :: depois, pedidos⟩

/-- Whether `f` names a factory record of the instance. -/
def fabricaExiste (fabricas : List (Int × Int × Int)) (f : Int) : Bool :=
  fabricas.any (fun fa => fa.1 == f)

/-- Every producer id listed by any request names an existing factory. -/
def produtoresExistem (inst : Instancia) : Bool :=
  inst.pedidos.all (fun p => p.2.2.all (fabricaExiste inst.fabricas))

/-- Sum of all factory capacities. -/
def somaCapacidades (inst : Instancia) : Int :=
  (inst.fabricas.map (fun fa => fa.2.2)).sum

/-- Requests with a nonempty eligibility list — the ones owning at least
one decision variable. -/
def incluidos (inst : Instancia) : Nat :=
  inst.pedidos.countP (fun p => !p.2.2.isEmpty)

/-- The internal failure conditions of `resolver_distribuicao`: unreadable
file, parse error (`ValueError`/`IndexError`), `PulpError` on a duplicated
constraint name, a non-`Optimal` solver status, or an exception while
solving or extracting values. -/
def FalhaInterna (conteudo : Option (List String)) (s : ResultadoSolver) : Prop :=
  conteudo = none ∨
  (∃ ls, conteudo = some ls ∧ parseInstancia ls = none) ∨
  (∃ ls inst, conteudo = some ls ∧ parseInstancia ls = some inst ∧
    temDuplicatas inst = true) ∨
  s = ResultadoSolver.statusFalha ∨
  s = ResultadoSolver.excecao

/-- Scenario B of the spec: two producers of total capacity 2, one group
with generous bounds, three requests eligible for both producers. -/
def instB : Instancia :=
  ⟨[(1, 1, 1), (2, 1, 1)], [(1, 3, 0)], [(1, 1, [1, 2]), (2, 1, [1, 2]), (3, 1, [1, 2])]⟩

/-- An optimal assignment for `instB`: request 1 to producer 1, request 2
to producer 2, request 3 unsatisfied. -/
def xB : Int → Int → Bool := fun k f => (k == 1 && f == 1) || (k == 2 && f == 2)

/-- One producer owned by group 1 with capacity 1, group 1 with
max-import 0, one request of group 1 eligible only for that producer. -/
def instC2 : Instancia := ⟨[(1, 1, 1)], [(1, 0, 0)], [(1, 1, [1])]⟩

/-- The intra-group assignment of request 1 to producer 1. -/
def xIntra : Int → Int → Bool := fun k f => k == 1 && f == 1

/-- One real producer, one group with slack bounds, and a single request
whose only listed producer id (99) does not exist. -/
def instC3 : Instancia := ⟨[(1, 1, 1)], [(1, 5, 0)], [(1, 1, [99])]⟩

/-- Assignment of request 1 to the nonexistent producer 99. -/
def xFantasma : Int → Int → Bool := fun k f => k == 1 && f == 99

/-- Like `instC3` but the only real factory has capacity 0, so the sum of
all capacities is 0. -/
def instC4 : Instancia := ⟨[(1, 1, 0)], [(1, 5, 0)], [(1, 1, [99])]⟩

/-- An infeasible instance: group 1 requires at least 3 imported units but
only one unit can ever be assigned. -/
def instC5 : Instancia := ⟨[(1, 1, 1)], [(1, 5, 3)], [(1, 1, [1])]⟩

/-- File content parsing to `instC5`. -/
def linhasC5 : List String := ["1 1 1", "1 1 1", "1 5 3", "1 1 1"]

/-- File content with a non-integer token in the factory record. -/
def linhasMal : List String := ["1 1 1", "a b c"]

/-- File content whose header declares non-positive counts `n = 0` and
`t = 0` and which still solves successfully. -/
def linhas6 : List String := ["0 1 0", "5 5 0"]

/-- The instance parsed from `linhas6`. -/
def inst6 : Instancia := ⟨[], [(5, 5, 0)], []⟩

/-- File content whose only factory references group 99, which is not
among the declared countries. -/
def linhas6d : List String := ["1 1 0", "1 99 1", "1 5 0"]

/-- The instance parsed from `linhas6d`. -/
def inst6d : Instancia := ⟨[(1, 99, 1)], [(1, 5, 0)], []⟩

/-- File content with a header of four integers (unpacking raises
`ValueError`). -/
def linhasCab4 : List String := ["1 2 3 4", "1 1 1"]

/-- Original instance for the relaxation witness: capacity 0. -/
def instF7 : Instancia := ⟨[(1, 1, 0)], [(1, 1, 0)], [(1, 1, [1])]⟩

/-- `instF7` with the capacity of factory 1 raised to 1. -/
def instR7 : Instancia := ⟨[(1, 1, 1)], [(1, 1, 0)], [(1, 1, [1])]⟩

/-- The all-zero assignment. -/
def xZero : Int → Int → Bool := fun _ _ => false

/-- Two producers of capacity 1 and a single request eligible for both:
an instance with two tied optimal assignments. -/
def instTie : Instancia := ⟨[(1, 1, 1), (2, 1, 1)], [(1, 2, 0)], [(1, 1, [1, 2])]⟩

/-- The tied optimum of `instTie` using producer 2. -/
def xTie : Int → Int → Bool := fun k f => k == 1 && f == 2

/-- Contribution of one request record to `somaFabrica` for factory `fi`. -/
def parcelaFabrica (x : Int → Int → Bool) (p : Int × Int × List Int) (fi : Int) : Int :=
  (p.2.2.map (fun f => if f = fi then val x p.1 f else 0)).sum

theorem val_lb (x : Int → Int → Bool) (k f : Int) : 0 ≤ val x k f := by
  unfold val; split <;> omega

theorem val_ub (x : Int → Int → Bool) (k f : Int) : val x k f ≤ 1 := by
  unfold val; split <;> omega

theorem somaPedido_nonneg (x : Int → Int → Bool) (k : Int) (l : List Int) :
    0 ≤ somaPedido x k l := by
  induction l with
  | nil => simp [somaPedido]
  | cons f resto ih =>
    have := val_lb x k f
    simp only [somaPedido, List.map_cons, List.sum_cons] at *
    omega

theorem somaPedido_ge_um (x : Int → Int → Bool) (k : Int) (l : List Int)
    (h : l.any (fun f => x k f) = true) : 1 ≤ somaPedido x k l := by
  induction l with
  | nil => simp at h
  | cons f resto ih =>
    simp only [List.any_cons, Bool.or_eq_true] at h
    have hr := somaPedido_nonneg x k resto
    have hv := val_lb x k f
    simp only [somaPedido, List.map_cons, List.sum_cons] at *
    rcases h with h | h
    · have hv1 : val x k f = 1 := by simp [val, h]
      omega
    · have := ih h; omega

theorem somaPedido_eq_zero (x : Int → Int → Bool) (k : Int) (l : List Int)
    (h : l.any (fun f => x k f) = false) : somaPedido x k l = 0 := by
  induction l with
  | nil => simp [somaPedido]
  | cons f resto ih =>
    simp only [List.any_cons, Bool.or_eq_false_iff] at h
    simp only [somaPedido, List.map_cons, List.sum_cons] at *
    rw [ih h.2, val, h.1]
    simp

theorem objetivo_cons (p : Int × Int × List Int) (ps : List (Int × Int × List Int))
    (x : Int → Int → Bool) :
    objetivo (p :: ps) x = somaPedido x p.1 p.2.2 + objetivo ps x := by
  simp [objetivo]

theorem resultado_cons (p : Int × Int × List Int) (ps : List (Int × Int × List Int))
    (x : Int → Int → Bool) :
    resultado (p :: ps) x = resultado ps x + (if atendido x p then 1 else 0) := by
  simp [resultado, List.countP_cons]

/-- The count of satisfied requests is bounded by the objective value,
with no feasibility assumption. -/
theorem resultado_le_objetivo (pedidos : List (Int × Int × List Int))
    (x : Int → Int → Bool) : (resultado pedidos x : Int) ≤ objetivo pedidos x := by
  induction pedidos with
  | nil => simp [resultado, objetivo]
  | cons p ps ih =>
    rw [resultado_cons, objetivo_cons]
    by_cases h : atendido x p = true
    · have := somaPedido_ge_um x p.1 p.2.2 h
      simp only [h, if_pos]
      push_cast
      omega
    · have hb : atendido x p = false := by simpa using h
      have hz := somaPedido_eq_zero x p.1 p.2.2 hb
      simp only [hb, Bool.false_eq_true, if_neg, not_false_iff]
      push_cast
      omega

/-- Under the per-request uniqueness constraints the objective value *is*
the count of satisfied requests. -/
theorem resultado_eq_objetivo (pedidos : List (Int × Int × List Int))
    (x : Int → Int → Bool)
    (h : ∀ p ∈ pedidos, somaPedido x p.1 p.2.2 ≤ 1) :
    (resultado pedidos x : Int) = objetivo pedidos x := by
  induction pedidos with
  | nil => simp [resultado, objetivo]
  | cons p ps ih =>
    rw [resultado_cons, objetivo_cons]
    have hp := h p (by simp)
    have hps := ih (fun q hq => h q (by simp [hq]))
    by_cases ha : atendido x p = true
    · have := somaPedido_ge_um x p.1 p.2.2 ha
      simp only [ha, if_pos]
      push_cast
      omega
    · have hb : atendido x p = false := by simpa using ha
      have hz := somaPedido_eq_zero x p.1 p.2.2 hb
      simp only [hb, Bool.false_eq_true, if_neg, not_false_iff]
      push_cast
      omega

theorem resultado_le_length (pedidos : List (Int × Int × List Int))
    (x : Int → Int → Bool) : resultado pedidos x ≤ pedidos.length := by
  unfold resultado
  exact List.countP_le_length _

theorem retorno_ge (inst : Instancia) (x : Int → Int → Bool) :
    -1 ≤ retorno inst x := by
  unfold retorno; split <;> omega

theorem retorno_cases (inst : Instancia) (x : Int → Int → Bool) :
    retorno inst x = -1 ∨ retorno inst x = (inst.pedidos.length : Int) := by
  have := resultado_le_length inst.pedidos x
  unfold retorno
  split
  · left; rfl
  · right; omega

/-- Unpacking `factivel` into its three constraint families. -/
theorem factivel_iff (inst : Instancia) (x : Int → Int → Bool) :
    factivel inst x = true ↔
      ((∀ fa ∈ inst.fabricas, somaFabrica inst.pedidos x fa.1 ≤ fa.2.2) ∧
       (∀ pa ∈ inst.paises, somaPais inst.pedidos x pa.1 ≤ pa.2.1 ∧
          pa.2.2 ≤ somaPais inst.pedidos x pa.1) ∧
       (∀ p ∈ inst.pedidos, somaPedido x p.1 p.2.2 ≤ 1)) := by
  simp only [factivel, List.all_eq_true, Bool.and_eq_true, decide_eq_true_eq]
  tauto

theorem resultado_eq_objetivo_factivel (inst : Instancia) (x : Int → Int → Bool)
    (h : factivel inst x = true) :
    (resultado inst.pedidos x : Int) = objetivo inst.pedidos x :=
  resultado_eq_objetivo inst.pedidos x ((factivel_iff inst x).mp h).2.2

theorem reporte_otimo (inst : Instancia) (x : Int → Int → Bool)
    (h : temDuplicatas inst = false) : reporte inst (.otimo x) = retorno inst x := by
  simp [reporte, h]

theorem reporte_statusFalha (inst : Instancia) : reporte inst .statusFalha = -1 := by
  unfold reporte; split <;> rfl

theorem reporte_excecao (inst : Instancia) : reporte inst .excecao = -1 := by
  unfold reporte; split <;> rfl

theorem instB_bound : ∀ y, factivel instB y = true → objetivo instB.pedidos y ≤ 2 := by
  intro y hy
  rw [factivel_iff] at hy
  obtain ⟨hfab, hpais, huni⟩ := hy
  have h1 := hfab (1, 1, 1) (by simp [instB])
  have h2 := hfab (2, 1, 1) (by simp [instB])
  simp only [instB, somaFabrica, somaPedido, objetivo, List.map_cons, List.map_nil,
    List.sum_cons, List.sum_nil] at h1 h2 ⊢
  norm_num at h1 h2 ⊢
  omega

theorem instB_otimo : Otimo instB xB := by
  constructor
  · decide
  · intro y hy
    have h2 : objetivo instB.pedidos xB = 2 := by decide
    rw [h2]
    exact instB_bound y hy

theorem instC2_zero : ∀ x, factivel instC2 x = true → x 1 1 = false := by
  intro x hx
  rw [factivel_iff] at hx
  have hp := hx.2.1 (1, 0, 0) (by simp [instC2])
  simp only [instC2, somaPais, somaPedido, List.map_cons, List.map_nil, List.sum_cons,
    List.sum_nil] at hp
  norm_num at hp
  cases hb : x 1 1 with
  | false => rfl
  | true =>
    exfalso
    rw [val, hb] at hp
    simp at hp

theorem instC2_retorno : ∀ x, factivel instC2 x = true → retorno instC2 x = -1 := by
  intro x hx
  have hz := instC2_zero x hx
  have hres : resultado instC2.pedidos x = 0 := by
    simp [instC2, resultado, List.countP, List.countP.go, atendido, hz]
  unfold retorno
  rw [hres]
  simp [instC2]

theorem instC3_bound : ∀ y, factivel instC3 y = true → objetivo instC3.pedidos y ≤ 1 := by
  intro y hy
  have hv := val_ub y 1 99
  simp only [instC3, objetivo, somaPedido, List.map_cons, List.map_nil,
    List.sum_cons, List.sum_nil]
  omega

theorem instC3_otimo : Otimo instC3 xFantasma := by
  constructor
  · decide
  · intro y hy
    have h1 : objetivo instC3.pedidos xFantasma = 1 := by decide
    rw [h1]
    exact instC3_bound y hy

theorem instC3_reporte : ∀ x, Otimo instC3 x → reporte instC3 (.otimo x) = 1 := by
  intro x hx
  have hge := hx.2 xFantasma (by decide)
  have hobj1 : objetivo instC3.pedidos xFantasma = 1 := by decide
  have hle := instC3_bound x hx.1
  have hobj : objetivo instC3.pedidos x = 1 := by omega
  have hres := resultado_eq_objetivo_factivel instC3 x hx.1
  rw [reporte_otimo instC3 x (by decide)]
  unfold retorno
  have hlen : instC3.pedidos.length = 1 := by decide
  rw [hobj] at hres
  have : resultado instC3.pedidos x = 1 := by omega
  rw [this, hlen]
  simp

theorem instC4_bound : ∀ y, factivel instC4 y = true → objetivo instC4.pedidos y ≤ 1 := by
  intro y hy
  have hv := val_ub y 1 99
  simp only [instC4, objetivo, somaPedido, List.map_cons, List.map_nil,
    List.sum_cons, List.sum_nil]
  omega

theorem instC4_otimo : Otimo instC4 xFantasma := by
  constructor
  · decide
  · intro y hy
    have h1 : objetivo instC4.pedidos xFantasma = 1 := by decide
    rw [h1]
    exact instC4_bound y hy

theorem instC5_infactivel : ∀ x, factivel instC5 x ≠ true := by
  intro x hx
  rw [factivel_iff] at hx
  have hp := hx.2.1 (1, 5, 3) (by simp [instC5])
  have hv := val_ub x 1 1
  simp only [instC5, somaPais, somaPedido, List.map_cons, List.map_nil, List.sum_cons,
    List.sum_nil] at hp
  norm_num at hp
  omega

theorem instF7_bound : ∀ y, factivel instF7 y = true → objetivo instF7.pedidos y ≤ 0 := by
  intro y hy
  rw [factivel_iff] at hy
  have h1 := hy.1 (1, 1, 0) (by simp [instF7])
  simp only [instF7, somaFabrica, objetivo, somaPedido, List.map_cons, List.map_nil,
    List.sum_cons, List.sum_nil] at h1 ⊢
  norm_num at h1 ⊢
  omega

theorem instF7_otimo : Otimo instF7 xZero := by
  constructor
  · decide
  · intro y hy
    have h0 : objetivo instF7.pedidos xZero = 0 := by decide
    rw [h0]
    exact instF7_bound y hy

theorem instR7_bound : ∀ y, factivel instR7 y = true → objetivo instR7.pedidos y ≤ 1 := by
  intro y hy
  have hv := val_ub y 1 1
  simp only [instR7, objetivo, somaPedido, List.map_cons, List.map_nil,
    List.sum_cons, List.sum_nil]
  omega

theorem instR7_otimo : Otimo instR7 xIntra := by
  constructor
  · decide
  · intro y hy
    have h1 : objetivo instR7.pedidos xIntra = 1 := by decide
    rw [h1]
    exact instR7_bound y hy

theorem relaxa_R7_F7 : Relaxa instR7 instF7 :=
  Relaxa.capacidade [] [] [(1, 1, 0)] [(1, 1, [1])] 1 1 0 1 (by omega)

theorem inst6_otimo : Otimo inst6 xZero := by
  constructor
  · decide
  · intro y hy
    simp [inst6, objetivo]

theorem soma_nonneg_lista (l : List Int) (h : ∀ a ∈ l, 0 ≤ a) : 0 ≤ l.sum := by
  induction l with
  | nil => simp
  | cons a resto ih =>
    have ha := h a (by simp)
    have hr := ih (fun b hb => h b (by simp [hb]))
    simp only [List.sum_cons]
    omega

theorem soma_le_soma {α : Type} (l : List α) (f g : α → Int)
    (h : ∀ a ∈ l, f a ≤ g a) : (l.map f).sum ≤ (l.map g).sum := by
  induction l with
  | nil => simp
  | cons a resto ih =>
    have ha := h a (by simp)
    have hr := ih (fun b hb => h b (by simp [hb]))
    simp only [List.map_cons, List.sum_cons]
    omega

theorem soma_map_add {α : Type} (l : List α) (f g : α → Int) :
    (l.map (fun a => f a + g a)).sum = (l.map f).sum + (l.map g).sum := by
  induction l with
  | nil => simp
  | cons a resto ih =>
    simp only [List.map_cons, List.sum_cons]
    omega

theorem soma_zeros {α : Type} (l : List α) : (l.map (fun _ => (0 : Int))).sum = 0 := by
  induction l with
  | nil => simp
  | cons a resto ih => simp only [List.map_cons, List.sum_cons]; omega

/-- Exchange of a double list sum. -/
theorem soma_troca {α β : Type} (l1 : List α) (l2 : List β) (g : α → β → Int) :
    (l1.map (fun a => (l2.map (fun b => g a b)).sum)).sum =
    (l2.map (fun b => (l1.map (fun a => g a b)).sum)).sum := by
  induction l1 with
  | nil => simp [soma_zeros]
  | cons a resto ih =>
    simp only [List.map_cons, List.sum_cons, ih]
    rw [← soma_map_add]

theorem relaxa_pedidos {R F : Instancia} (h : Relaxa R F) : R.pedidos = F.pedidos := by
  cases h <;> rfl

theorem relaxa_temDuplicatas {R F : Instancia} (h : Relaxa R F) :
    temDuplicatas R = temDuplicatas F := by
  cases h <;> simp [temDuplicatas, List.map_append, List.map_cons]

/-- Relaxing one bound preserves feasibility of every assignment. -/
theorem relaxa_factivel {R F : Instancia} (h : Relaxa R F) (x : Int → Int → Bool)
    (hf : factivel F x = true) : factivel R x = true := by
  cases h with
  | capacidade antes depois paises pedidos fi pj c c' hcc =>
    rw [factivel_iff] at hf ⊢
    obtain ⟨h1, h2, h3⟩ := hf
    refine ⟨?_, h2, h3⟩
    intro fa hfa
    rcases List.mem_append.mp hfa with hfa | hfa
    · exact h1 fa (List.mem_append.mpr (Or.inl hfa))
    · rcases List.mem_cons.mp hfa with hfa | hfa
      · subst hfa
        have hc := h1 (fi, pj, c) (List.mem_append.mpr (Or.inr (List.mem_cons_self _ _)))
        simp only at hc ⊢
        omega
      · exact h1 fa (List.mem_append.mpr (Or.inr (List.mem_cons_of_mem _ hfa)))
  | importMax fabricas antes depois pedidos pj pmax pmax' pmin hmm =>
    rw [factivel_iff] at hf ⊢
    obtain ⟨h1, h2, h3⟩ := hf
    refine ⟨h1, ?_, h3⟩
    intro pa hpa
    rcases List.mem_append.mp hpa with hpa | hpa
    · exact h2 pa (List.mem_append.mpr (Or.inl hpa))
    · rcases List.mem_cons.mp hpa with hpa | hpa
      · subst hpa
        have hc := h2 (pj, pmax, pmin) (List.mem_append.mpr (Or.inr (List.mem_cons_self _ _)))
        simp only at hc ⊢
        omega
      · exact h2 pa (List.mem_append.mpr (Or.inr (List.mem_cons_of_mem _ hpa)))
  | importMin fabricas antes depois pedidos pj pmax pmin pmin' hmm =>
    rw [factivel_iff] at hf ⊢
    obtain ⟨h1, h2, h3⟩ := hf
    refine ⟨h1, ?_, h3⟩
    intro pa hpa
    rcases List.mem_append.mp hpa with hpa | hpa
    · exact h2 pa (List.mem_append.mpr (Or.inl hpa))
    · rcases List.mem_cons.mp hpa with hpa | hpa
      · subst hpa
        have hc := h2 (pj, pmax, pmin) (List.mem_append.mpr (Or.inr (List.mem_cons_self _ _)))
        simp only at hc ⊢
        omega
      · exact h2 pa (List.mem_append.mpr (Or.inr (List.mem_cons_of_mem _ hpa)))

/-- Each variable's value splits into its import part and its own-group
(or unknown-producer) part. -/
theorem val_split (fabricas : List (Int × Int × Int)) (x : Int → Int → Bool)
    (pj k f : Int) :
    val x k f = valImportada fabricas x pj k f + valPropria fabricas x pj k f := by
  unfold valImportada valPropria
  cases hg : grupoDaFabrica fabricas f with
  | none => simp
  | some g => by_cases hgg : g = pj <;> simp [hgg]

theorem somaPedido_split (fabricas : List (Int × Int × Int)) (x : Int → Int → Bool)
    (pj k : Int) (l : List Int) :
    somaPedido x k l = (l.map (fun f => valImportada fabricas x pj k f)).sum +
      (l.map (fun f => valPropria fabricas x pj k f)).sum := by
  induction l with
  | nil => simp [somaPedido]
  | cons f resto ih =>
    have hv := val_split fabricas x pj k f
    simp only [somaPedido, List.map_cons, List.sum_cons] at *
    omega

/-- The code's group sum decomposes into the spec's import sum plus the
intra-group part; the code bounds the whole sum, not just the import part. -/
theorem somaPais_split (fabricas : List (Int × Int × Int))
    (pedidos : List (Int × Int × List Int)) (x : Int → Int → Bool) (pj : Int) :
    somaPais pedidos x pj =
      somaPaisImportada fabricas pedidos x pj + somaPaisPropria fabricas pedidos x pj := by
  induction pedidos with
  | nil => simp [somaPais, somaPaisImportada, somaPaisPropria]
  | cons p ps ih =>
    simp only [somaPais, somaPaisImportada, somaPaisPropria, List.map_cons,
      List.sum_cons] at *
    by_cases hc : p.2.1 = pj
    · have hs := somaPedido_split fabricas x pj p.1 p.2.2
      simp only [hc, eq_self_iff_true, if_true]
      omega
    · simp only [if_neg hc]
      omega

theorem parcela_nonneg (x : Int → Int → Bool) (p : Int × Int × List Int) (fi : Int) :
    0 ≤ parcelaFabrica x p fi := by
  unfold parcelaFabrica
  apply soma_nonneg_lista
  intro a ha
  simp only [List.mem_map] at ha
  obtain ⟨f, hf, rfl⟩ := ha
  split
  · exact val_lb x p.1 f
  · omega

theorem val_le_parcelas (fabricas : List (Int × Int × Int)) (x : Int → Int → Bool)
    (k f : Int) (h : fabricaExiste fabricas f = true) :
    val x k f ≤ (fabricas.map (fun fa => if f = fa.1 then val x k f else 0)).sum := by
  induction fabricas with
  | nil => simp [fabricaExiste] at h
  | cons fa resto ih =>
    simp only [fabricaExiste, List.any_cons, Bool.or_eq_true, beq_iff_eq] at h
    simp only [List.map_cons, List.sum_cons]
    by_cases hq : f = fa.1
    · have hnn : 0 ≤ (resto.map (fun fb => if f = fb.1 then val x k f else 0)).sum := by
        apply soma_nonneg_lista
        intro a ha
        simp only [List.mem_map] at ha
        obtain ⟨fb, hfb, rfl⟩ := ha
        have := val_lb x k f
        split <;> omega
      rw [if_pos hq]
      omega
    · rw [if_neg hq]
      rcases h with h | h
      · exact absurd h.symm hq
      · have := ih (by simpa [fabricaExiste] using h)
        omega

theorem somaPedido_le_parcelas (fabricas : List (Int × Int × Int))
    (x : Int → Int → Bool) (p : Int × Int × List Int)
    (h : ∀ f ∈ p.2.2, fabricaExiste fabricas f = true) :
    somaPedido x p.1 p.2.2 ≤ (fabricas.map (fun fa => parcelaFabrica x p fa.1)).sum := by
  have htroca : (fabricas.map (fun fa => parcelaFabrica x p fa.1)).sum =
      (p.2.2.map (fun f => (fabricas.map (fun fa => if f = fa.1 then val x p.1 f else 0)).sum)).sum := by
    unfold parcelaFabrica
    exact soma_troca fabricas p.2.2 (fun fa f => if f = fa.1 then val x p.1 f else 0)
  rw [htroca]
  unfold somaPedido
  apply soma_le_soma
  intro f hf
  exact val_le_parcelas fabricas x p.1 f (h f hf)

/-- When every listed producer id names an existing factory, the objective
is bounded by the sum of all capacities. -/
theorem objetivo_le_capacidades (inst : Instancia) (x : Int → Int → Bool)
    (hex : produtoresExistem inst = true) (hf : factivel inst x = true) :
    objetivo inst.pedidos x ≤ somaCapacidades inst := by
  have hswap : (inst.fabricas.map (fun fa => somaFabrica inst.pedidos x fa.1)).sum =
      (inst.pedidos.map (fun p => (inst.fabricas.map (fun fa => parcelaFabrica x p fa.1)).sum)).sum := by
    have : ∀ fa : Int × Int × Int, somaFabrica inst.pedidos x fa.1 =
        (inst.pedidos.map (fun p => parcelaFabrica x p fa.1)).sum := fun _ => rfl
    simp only [this]
    exact soma_troca inst.fabricas inst.pedidos (fun fa p => parcelaFabrica x p fa.1)
  have h1 : objetivo inst.pedidos x ≤
      (inst.fabricas.map (fun fa => somaFabrica inst.pedidos x fa.1)).sum := by
    rw [hswap]
    unfold objetivo
    apply soma_le_soma
    intro p hp
    apply somaPedido_le_parcelas
    intro f hfm
    simp only [produtoresExistem, List.all_eq_true] at hex
    exact hex p hp f hfm
  have h2 : (inst.fabricas.map (fun fa => somaFabrica inst.pedidos x fa.1)).sum ≤
      somaCapacidades inst := by
    unfold somaCapacidades
    apply soma_le_soma
    intro fa hfa
    exact ((factivel_iff inst x).mp hf).1 fa hfa
  omega

/-- The count of satisfied requests only counts requests with a nonempty
eligibility list. -/
theorem resultado_le_incluidos (inst : Instancia) (x : Int → Int → Bool) :
    resultado inst.pedidos x ≤ incluidos inst := by
  unfold resultado incluidos
  induction inst.pedidos with
  | nil => simp
  | cons p ps ih =>
    simp only [List.countP_cons]
    have himp : atendido x p = true → (!p.2.2.isEmpty) = true := by
      intro hat
      unfold atendido at hat
      cases hl : p.2.2 with
      | nil => rw [hl] at hat; simp at hat
      | cons a l => simp [hl]
    by_cases hat : atendido x p = true
    · simp [hat, himp hat]
      omega
    · have hfalso : atendido x p = false := by simpa using hat
      simp [hfalso]
      split <;> omega

theorem instTie_bound : ∀ y, factivel instTie y = true → objetivo instTie.pedidos y ≤ 1 := by
  intro y hy
  have hu := ((factivel_iff _ _).mp hy).2.2 (1, 1, [1, 2]) (by simp [instTie])
  simp only [instTie, objetivo, somaPedido, List.map_cons, List.map_nil,
    List.sum_cons, List.sum_nil] at hu ⊢
  omega

theorem instTie_otimo1 : Otimo instTie xIntra := by
  constructor
  · decide
  · intro y hy
    have h1 : objetivo instTie.pedidos xIntra = 1 := by decide
    rw [h1]
    exact instTie_bound y hy

theorem instTie_otimo2 : Otimo instTie xTie := by
  constructor
  · decide
  · intro y hy
    have h1 : objetivo instTie.pedidos xTie = 1 := by decide
    rw [h1]
    exact instTie_bound y hy

/-- C1: the claim asserts Scenario B reports `Optimal{count=2}`; the code
reports `-1` on a lawful optimal solver answer, because line 107 turns any
partially satisfied optimum into the failure value. -/
theorem C1_contraexemplo : Otimo instB xB ∧ reporte instB (.otimo xB) = -1 :=
  ⟨instB_otimo, by decide⟩

/-- C1 (amended): on Scenario B every optimal solver answer has objective
value 2, and the reported value is `-1`, not the maximal count — partial
fulfillment is treated as a failure, not a success. -/
theorem C1_corrigido : ∀ x, Otimo instB x →
    objetivo instB.pedidos x = 2 ∧ reporte instB (.otimo x) = -1 := by
  intro x hx
  have hub := instB_bound x hx.1
  have hlb := hx.2 xB (by decide)
  have hxb : objetivo instB.pedidos xB = 2 := by decide
  have hobj : objetivo instB.pedidos x = 2 := by omega
  refine ⟨hobj, ?_⟩
  rw [reporte_otimo instB x (by decide)]
  have hres := resultado_eq_objetivo_factivel instB x hx.1
  have hlen : instB.pedidos.length = 3 := by decide
  have hr2 : resultado instB.pedidos x = 2 := by omega
  unfold retorno
  rw [hr2, hlen]
  simp

/-- Witness for C1: the amended theorem applied to the concrete optimal
assignment `xB`. -/
theorem C1_testemunha : objetivo instB.pedidos xB = 2 ∧ reporte instB (.otimo xB) = -1 :=
  C1_corrigido xB instB_otimo

/-- C2: the claim asserts intra-group assignments are excluded from the
group's import bounds.  In `instC2` the only assignment pair is
intra-group (request of group 1, producer owned by group 1), yet the
code's max-import bound of 0 forces the variable to 0 and the run reports
`-1`, while the spec's cross-group-only bounds accept the assignment. -/
theorem C2_contraexemplo :
    (∀ x, factivel instC2 x = true → x 1 1 = false ∧ retorno instC2 x = -1) ∧
    factivelSpec instC2 xIntra = true ∧ xIntra 1 1 = true ∧
    resultado instC2.pedidos xIntra = 1 :=
  ⟨fun x hx => ⟨instC2_zero x hx, instC2_retorno x hx⟩, by decide, by decide, by decide⟩

/-- C2 (amended): the group bounds apply to the *whole* sum of variables
of the group's requests — the cross-group import part plus the intra-group
(or unknown-producer) part — with no exclusion of intra-group fulfillment. -/
theorem C2_corrigido : ∀ inst x pa, factivel inst x = true → pa ∈ inst.paises →
    somaPaisImportada inst.fabricas inst.pedidos x pa.1 +
      somaPaisPropria inst.fabricas inst.pedidos x pa.1 ≤ pa.2.1 ∧
    pa.2.2 ≤ somaPaisImportada inst.fabricas inst.pedidos x pa.1 +
      somaPaisPropria inst.fabricas inst.pedidos x pa.1 := by
  intro inst x pa hx hpa
  have hp := ((factivel_iff inst x).mp hx).2.1 pa hpa
  have hsplit := somaPais_split inst.fabricas inst.pedidos x pa.1
  omega

/-- Witness for C2: the amended bound evaluated on Scenario B's instance,
whose two assigned pairs are both intra-group. -/
theorem C2_testemunha :
    somaPaisImportada instB.fabricas instB.pedidos xB 1 +
      somaPaisPropria instB.fabricas instB.pedidos xB 1 ≤ 3 ∧
    (0 : Int) ≤ somaPaisImportada instB.fabricas instB.pedidos xB 1 +
      somaPaisPropria instB.fabricas instB.pedidos xB 1 :=
  C2_corrigido instB xB (1, 3, 0) (by decide) (by decide)

/-- C3: the claim asserts a request whose only listed producer id does not
exist is excluded, yielding `Optimal{count=0}`.  The code never filters
producer ids: the variable `x[1, 99]` is created, no capacity constraint
mentions it, the optimum sets it to 1, and the run reports 1, not 0. -/
theorem C3_contraexemplo :
    Otimo instC3 xFantasma ∧ reporte instC3 (.otimo xFantasma) = 1 ∧
    reporte instC3 (.otimo xFantasma) ≠ 0 :=
  ⟨instC3_otimo, by decide, by decide⟩

/-- C3 (amended): unknown producer ids are kept, their variables are
unconstrained by any capacity, and the instance whose only request lists
only the nonexistent producer 99 reports 1 on every optimal answer. -/
theorem C3_corrigido : ∀ x, Otimo instC3 x → reporte instC3 (.otimo x) = 1 :=
  instC3_reporte

/-- Witness for C3: the amended theorem at the concrete optimum. -/
theorem C3_testemunha : reporte instC3 (.otimo xFantasma) = 1 :=
  C3_corrigido xFantasma instC3_otimo

/-- C4: the claim's capacity half fails — `instC4` has total capacity 0,
yet a lawful optimal answer assigns the only request to the nonexistent
producer 99 and the code reports 1. -/
theorem C4_contraexemplo :
    Otimo instC4 xFantasma ∧ reporte instC4 (.otimo xFantasma) = 1 ∧
    somaCapacidades instC4 = 0 :=
  ⟨instC4_otimo, by decide, by decide⟩

/-- C4 (amended): the satisfied count never exceeds the number of requests
owning at least one variable; the capacity bound additionally requires
every listed producer id to name an existing factory. -/
theorem C4_corrigido : ∀ inst x, factivel inst x = true →
    resultado inst.pedidos x ≤ incluidos inst ∧
    (produtoresExistem inst = true →
      (resultado inst.pedidos x : Int) ≤ somaCapacidades inst) := by
  intro inst x hx
  refine ⟨resultado_le_incluidos inst x, fun hex => ?_⟩
  have h1 := resultado_eq_objetivo_factivel inst x hx
  have h2 := objetivo_le_capacidades inst x hex hx
  omega

/-- Witness for C4: the amended bounds evaluated on Scenario B. -/
theorem C4_testemunha :
    resultado instB.pedidos xB ≤ incluidos instB ∧
    (produtoresExistem instB = true →
      (resultado instB.pedidos xB : Int) ≤ somaCapacidades instB) :=
  C4_corrigido instB xB (by decide)

/-- C5: the claim asserts the failure conditions are mutually
distinguishable.  A malformed record, a genuinely infeasible instance
(no feasible assignment exists), a solver exception, and an unreadable
file all collapse to the same value `-1`. -/
theorem C5_contraexemplo :
    resolver_distribuicao (some linhasMal) ResultadoSolver.excecao = -1 ∧
    (∀ x, factivel instC5 x ≠ true) ∧
    parseInstancia linhasC5 = some instC5 ∧
    resolver_distribuicao (some linhasC5) ResultadoSolver.statusFalha = -1 ∧
    resolver_distribuicao none ResultadoSolver.excecao = -1 :=
  ⟨by decide, instC5_infactivel, by decide, by decide, rfl⟩

/-- C5 (amended): every failure condition — unreadable file, parse error,
non-`Optimal` solver status, exception — is reported as the single value
`-1`, so the caller cannot distinguish them. -/
theorem C5_corrigido : ∀ s ls,
    resolver_distribuicao none s = -1 ∧
    (parseInstancia ls = none → resolver_distribuicao (some ls) s = -1) ∧
    resolver_distribuicao (some ls) ResultadoSolver.statusFalha = -1 ∧
    resolver_distribuicao (some ls) ResultadoSolver.excecao = -1 := by
  intro s ls
  refine ⟨rfl, fun h => by simp [resolver_distribuicao, h], ?_, ?_⟩
  · cases hp : parseInstancia ls with
    | none => simp [resolver_distribuicao, hp]
    | some inst => simp [resolver_distribuicao, hp, reporte_statusFalha]
  · cases hp : parseInstancia ls with
    | none => simp [resolver_distribuicao, hp]
    | some inst => simp [resolver_distribuicao, hp, reporte_excecao]

/-- Witness for C5: the collapse at concrete failing inputs. -/
theorem C5_testemunha :
    resolver_distribuicao none ResultadoSolver.excecao = -1 ∧
    resolver_distribuicao (some linhasMal) ResultadoSolver.excecao = -1 ∧
    resolver_distribuicao (some linhasMal) ResultadoSolver.statusFalha = -1 :=
  ⟨(C5_corrigido ResultadoSolver.excecao linhasMal).1,
   (C5_corrigido ResultadoSolver.excecao linhasMal).2.1 (by decide),
   (C5_corrigido ResultadoSolver.statusFalha linhasMal).2.2.1⟩

/-- C6: the claim asserts non-positive declared counts fail with
`InvalidInstance` before any solving.  The header of `linhas6` declares
`n = 0` and `t = 0`, yet parsing succeeds, the model is solved, and the
run reports 0 — no failure at all. -/
theorem C6_contraexemplo :
    parseInstancia linhas6 = some inst6 ∧ Otimo inst6 xZero ∧
    resolver_distribuicao (some linhas6) (.otimo xZero) = 0 :=
  ⟨by decide, inst6_otimo, by decide⟩

/-- C6 (amended): a malformed record (wrong field count or non-integer
token) yields `-1` before any solver outcome matters, but non-positive
declared counts and a producer referencing an absent group are accepted. -/
theorem C6_corrigido : ∀ s,
    resolver_distribuicao (some linhasCab4) s = -1 ∧
    resolver_distribuicao (some linhasMal) s = -1 ∧
    parseInstancia linhas6 = some inst6 ∧
    parseInstancia linhas6d = some inst6d := by
  intro s
  have h1 : parseInstancia linhasCab4 = none := by decide
  have h2 : parseInstancia linhasMal = none := by decide
  exact ⟨by simp [resolver_distribuicao, h1], by simp [resolver_distribuicao, h2],
    by decide, by decide⟩

/-- Witness for C6: the amended statement at a concrete solver outcome. -/
theorem C6_testemunha :
    resolver_distribuicao (some linhasCab4) ResultadoSolver.excecao = -1 ∧
    resolver_distribuicao (some linhasMal) ResultadoSolver.excecao = -1 ∧
    parseInstancia linhas6 = some inst6 ∧
    parseInstancia linhas6d = some inst6d :=
  C6_corrigido ResultadoSolver.excecao

/-- C7: relaxing a single bound (capacity raised, max-import raised, or
min-import lowered) never decreases the reported value, whatever optimal
assignment the solver picks on either instance. -/
theorem C7_confirmado : ∀ F R x0 xr, Relaxa R F → Otimo F x0 → Otimo R xr →
    reporte F (.otimo x0) ≤ reporte R (.otimo xr) := by
  intro F R x0 xr hrel h0 hr
  by_cases hdup : temDuplicatas F = true
  · have hdupR : temDuplicatas R = true := by rw [relaxa_temDuplicatas hrel]; exact hdup
    simp [reporte, hdup, hdupR]
  · have hdF : temDuplicatas F = false := by simpa using hdup
    have hdR : temDuplicatas R = false := by rw [relaxa_temDuplicatas hrel]; exact hdF
    rw [reporte_otimo F x0 hdF, reporte_otimo R xr hdR]
    have hped := relaxa_pedidos hrel
    have hres0 := resultado_eq_objetivo_factivel F x0 h0.1
    have hresr := resultado_eq_objetivo_factivel R xr hr.1
    have hmono : objetivo F.pedidos x0 ≤ objetivo F.pedidos xr := by
      have hx0R : factivel R x0 = true := relaxa_factivel hrel x0 h0.1
      have h := hr.2 x0 hx0R
      rw [hped] at h
      exact h
    have hlen0 := resultado_le_length F.pedidos x0
    have hlenr := resultado_le_length R.pedidos xr
    rw [hped] at hresr hlenr
    unfold retorno
    rw [hped]
    split <;> split <;> omega

/-- Witness for C7: raising the capacity of the only factory of `instF7`
from 0 to 1 raises the reported value from `-1` to 1. -/
theorem C7_testemunha : reporte instF7 (.otimo xZero) ≤ reporte instR7 (.otimo xIntra) :=
  C7_confirmado instF7 instR7 xZero xIntra relaxa_R7_F7 instF7_otimo instR7_otimo

/-- C8: the reported value is the same for any two optimal assignments of
the same instance — the count is a deterministic function of the instance
even when the witnessing assignment differs among tied optima. -/
theorem C8_confirmado : ∀ inst x y, Otimo inst x → Otimo inst y →
    reporte inst (.otimo x) = reporte inst (.otimo y) := by
  intro inst x y hx hy
  by_cases hdup : temDuplicatas inst = true
  · simp [reporte, hdup]
  · have hd : temDuplicatas inst = false := by simpa using hdup
    rw [reporte_otimo _ _ hd, reporte_otimo _ _ hd]
    have h1 := resultado_eq_objetivo_factivel inst x hx.1
    have h2 := resultado_eq_objetivo_factivel inst y hy.1
    have h3 := hx.2 y hy.1
    have h4 := hy.2 x hx.1
    have hres : resultado inst.pedidos x = resultado inst.pedidos y := by omega
    unfold retorno
    rw [hres]

/-- Witness for C8: the two tied optima of `instTie` report the same
value. -/
theorem C8_testemunha : reporte instTie (.otimo xIntra) = reporte instTie (.otimo xTie) :=
  C8_confirmado instTie xIntra xTie instTie_otimo1 instTie_otimo2

/-- C9: every internal failure path — unreadable file, parse error,
duplicated constraint name, non-`Optimal` status, exception while solving
or extracting — yields `-1`; no exception escapes to the caller. -/
theorem C9_confirmado : ∀ conteudo s, FalhaInterna conteudo s →
    resolver_distribuicao conteudo s = -1 := by
  intro conteudo s hfalha
  rcases hfalha with h | ⟨ls, rfl, hp⟩ | ⟨ls, inst, rfl, hp, hdup⟩ | rfl | rfl
  · rw [h]; rfl
  · simp [resolver_distribuicao, hp]
  · simp [resolver_distribuicao, hp, reporte, hdup]
  · cases conteudo with
    | none => rfl
    | some ls =>
      cases hp : parseInstancia ls with
      | none => simp [resolver_distribuicao, hp]
      | some inst => simp [resolver_distribuicao, hp, reporte_statusFalha]
  · cases conteudo with
    | none => rfl
    | some ls =>
      cases hp : parseInstancia ls with
      | none => simp [resolver_distribuicao, hp]
      | some inst => simp [resolver_distribuicao, hp, reporte_excecao]

/-- Witness for C9: an unreadable file with a solver exception. -/
theorem C9_testemunha :
    FalhaInterna none ResultadoSolver.excecao ∧
    resolver_distribuicao none ResultadoSolver.excecao = -1 :=
  ⟨Or.inl rfl, C9_confirmado none ResultadoSolver.excecao (Or.inl rfl)⟩

/-- C10: every returned value is `-1` or exactly the number of parsed
requests — never a positive count strictly smaller than it. -/
theorem C10_confirmado : ∀ conteudo s,
    resolver_distribuicao conteudo s = -1 ∨
    ∃ ls inst, conteudo = some ls ∧ parseInstancia ls = some inst ∧
      resolver_distribuicao conteudo s = (inst.pedidos.length : Int) := by
  intro conteudo s
  cases conteudo with
  | none => exact Or.inl rfl
  | some ls =>
    cases hp : parseInstancia ls with
    | none => exact Or.inl (by simp [resolver_distribuicao, hp])
    | some inst =>
      have hred : resolver_distribuicao (some ls) s = reporte inst s := by
        simp [resolver_distribuicao, hp]
      by_cases hdup : temDuplicatas inst = true
      · exact Or.inl (by rw [hred]; simp [reporte, hdup])
      · have hd : temDuplicatas inst = false := by simpa using hdup
        cases s with
        | statusFalha => exact Or.inl (by rw [hred]; simp [reporte, hd])
        | excecao => exact Or.inl (by rw [hred]; simp [reporte, hd])
        | otimo x =>
          rcases retorno_cases inst x with hc | hc
          · exact Or.inl (by rw [hred, reporte_otimo inst x hd, hc])
          · exact Or.inr ⟨ls, inst, rfl, hp, by rw [hred, reporte_otimo inst x hd, hc]⟩

end P3
